import Mathlib

/-!
# streamer: the ffmpeg command builder of `process.go`

A shallow embedding of `Process`, `NewProcess`, `Process.getHLSFlags` and
`Process.Spawn`, and the properties of the argument sequence that `Spawn`
hands to `exec.Command` and of the descriptor it returns.

Go strings are embedded as Lean `String`s, Go `int` as `Int` (no arithmetic is
performed on `streamDuration`, it is only compared with `0` and printed), and
the `[]string` slice `processCommands` as `List String`, `append` being `++`.
-/

namespace Streamer

/-! ## Data model -/

/-- ProcessLoggingOpts describes options for process logging (process.go, lines 18-25). -/
structure ProcessLoggingOpts where
  Enabled : Bool
  Directory : String
  MaxSize : Int
  MaxBackups : Int
  MaxAge : Int
  Compress : Bool
  deriving DecidableEq, Repr

/-- Process is the main type for creating new processes (process.go, lines 28-34). -/
structure Process where
  keepFiles : Bool
  audio : Bool
  live : Bool
  streamDuration : Int
  loggingOpts : ProcessLoggingOpts
  deriving DecidableEq, Repr

/-- NewProcess fills the fields positionally, in declaration order (process.go, lines 40-48). -/
def NewProcess (keepFiles : Bool) (audio : Bool) (live : Bool) (streamDuration : Int)
    (loggingOpts : ProcessLoggingOpts) : Process :=
  ⟨keepFiles, audio, live, streamDuration, loggingOpts⟩

/-! ## Standard-library functions used by `Spawn` -/

/-- The digit loop of `strconv.formatBits` for base 10: the decimal digits of `u`, most
significant first, preceded by a minus sign when `neg` is set. -/
def formatBits (u : Nat) (neg : Bool) : String :=
  (if neg then "-" else "") ++ String.mk (Nat.toDigits 10 u)

/-- The function `strconv.Itoa`: `FormatInt(int64(i), 10)`, which prints the magnitude of `i`
in base 10 and a leading minus sign for a negative `i`. -/
def Itoa (i : Int) : String :=
  formatBits i.natAbs (decide (i < 0))

/-- The command descriptor `exec.Cmd`, reduced to the fields `exec.Command` fills: `Path`,
`Args` (`Args[0]` is the command name) and `Err`, the error of the path lookup, if any. -/
structure Cmd where
  Path : String
  Args : List String
  Err : Option String
  deriving DecidableEq, Repr

/-- The function `filepath.Base` with `/` as the only path separator and no volume names:
the last element of `path`, trailing separators removed; `.` for the empty path and `/` for
a path of separators only. -/
def Base (path : String) : String :=
  if path = "" then
    "."
  else
    let stripped := (path.data.reverse.dropWhile (fun c => c == '/')).reverse
    let last := (stripped.reverse.takeWhile (fun c => c != '/')).reverse
    if last = [] then
      "/"
    else
      String.mk last

/-- The function `exec.Command(name, arg...)`. `Path` is `name` and `Args` is `name`
followed by `arg`; when `name` has no path separators, `name` is looked up in the
environment: `lookPath` stands for `exec.LookPath` and yields the resolved path (empty when
there is none) and the error of the lookup, a non-empty path replaces `Path` and an error
is recorded in `Err`. -/
def Command (lookPath : String → String × Option String) (name : String)
    (arg : List String) : Cmd :=
  let cmd : Cmd := { Path := name, Args := name :: arg, Err := none }
  if Base name = name then
    let found := lookPath name
    let cmd : Cmd := if found.1 ≠ "" then { cmd with Path := found.1 } else cmd
    let cmd : Cmd := if found.2 ≠ none then { cmd with Err := found.2 } else cmd
    cmd
  else
    cmd

/-! ## The builder -/

/-- getHLSFlags are for getting the flags based on the config context
(process.go, lines 51-56). -/
def Process.getHLSFlags (p : Process) : String :=
  if p.keepFiles then
    "append_list"
  else
    "delete_segments+append_list"

/-- The value of the local slice `processCommands` of `Spawn` when it is handed to
`exec.Command` (process.go, lines 61-109): the initial literal followed by the conditional
appends, in source order. `fmt.Sprintf("%s/%%d.ts", path)` is `path ++ "/%d.ts"` and
`fmt.Sprintf("%s/index.m3u8", path)` is `path ++ "/index.m3u8"`. -/
def Process.processCommands (p : Process) (path URI : String) : List String :=
  let processCommands : List String := [
    "-y",
    "-rtsp_transport",
    "tcp",
    "-i",
    URI,
    "-c:v",
    "libx264",
    "-x264opts",
    "keyint=30:no-scenecut",
    "-preset",
    "veryfast"
  ]
  let processCommands :=
    if p.audio then
      processCommands ++ ["-c:a", "copy"]
    else
      processCommands ++ ["-an"]
  let processCommands :=
    if p.streamDuration > 0 then
      processCommands ++ ["-t", Itoa p.streamDuration]
    else
      processCommands
  let processCommands := processCommands ++ [
    "-f",
    "hls"
  ]
  let processCommands :=
    if p.live then
      processCommands ++ [
        "-hls_flags",
        p.getHLSFlags,
        "-segment_list_flags",
        "live",
        "-hls_time",
        "1",
        "-hls_list_size",
        "3"
      ]
    else
      processCommands ++ [
        "-hls_list_size",
        "0",
        "-hls_time",
        "5"
      ]
  let processCommands := processCommands ++ [
    "-hls_segment_filename",
    path ++ "/%d.ts",
    path ++ "/index.m3u8"
  ]
  processCommands

/-- Spawn creates a new FFMPEG cmd (process.go, lines 59-113). `mkdirAll` stands for
`os.MkdirAll(path, os.ModePerm)` in the ambient filesystem: it yields `none` on success and
`some err` on failure, and `Spawn` discards what it yields. `lookPath` stands for the path
lookup that `exec.Command` performs in the environment. The `logrus.Debugf` record has no
influence on the returned descriptor and is not modelled. -/
def Process.Spawn (p : Process) (mkdirAll : String → Option String)
    (lookPath : String → String × Option String) (path URI : String) : Cmd :=
  let _ := mkdirAll path
  let processCommands := p.processCommands path URI
  let cmd := Command lookPath "ffmpeg" processCommands
  cmd

/-! ## Argument groups named by the specification -/

/-- The fixed head: overwrite flag, RTSP transport, input and the video codec settings. -/
def inputVideoGroup (URI : String) : List String :=
  ["-y", "-rtsp_transport", "tcp", "-i", URI, "-c:v", "libx264", "-x264opts",
    "keyint=30:no-scenecut", "-preset", "veryfast"]

/-- The audio group. -/
def audioGroup (audio : Bool) : List String :=
  if audio then ["-c:a", "copy"] else ["-an"]

/-- The duration-cap group. -/
def durationGroup (streamDuration : Int) : List String :=
  if streamDuration > 0 then ["-t", Itoa streamDuration] else []

/-- The output-format group. -/
def formatGroup : List String := ["-f", "hls"]

/-- The mode-dependent HLS group. -/
def modeGroup (p : Process) : List String :=
  if p.live then
    ["-hls_flags", p.getHLSFlags, "-segment_list_flags", "live", "-hls_time", "1",
      "-hls_list_size", "3"]
  else
    ["-hls_list_size", "0", "-hls_time", "5"]

/-- The terminal group: segment template and playlist. -/
def terminalGroup (dir : String) : List String :=
  ["-hls_segment_filename", dir ++ "/%d.ts", dir ++ "/index.m3u8"]

/-! ## Vocabulary of the properties -/

/-- Tokens `a` and `b` stand at the adjacent positions `i` and `i + 1` of `l`. -/
def pairAt (l : List String) (i : Nat) (a b : String) : Prop :=
  l[i]? = some a ∧ l[i + 1]? = some b

instance (l : List String) (i : Nat) (a b : String) : Decidable (pairAt l i a b) :=
  inferInstanceAs (Decidable (l[i]? = some a ∧ l[i + 1]? = some b))

/-- A logging configuration with logging switched off, for concrete instances. -/
def noLogging : ProcessLoggingOpts :=
  { Enabled := false, Directory := "", MaxSize := 0, MaxBackups := 0, MaxAge := 0,
    Compress := false }

/-- An environment in which every bare command name resolves under `/usr/bin`. -/
def lookPathInstalled (name : String) : String × Option String :=
  ("/usr/bin/" ++ name, none)

/-- An environment in which no command is found. -/
def lookPathMissing (_name : String) : String × Option String :=
  ("", some "executable file not found")

/-- A logging configuration with logging switched on, for concrete instances. -/
def fileLogging : ProcessLoggingOpts :=
  { Enabled := true, Directory := "/var/log/streamer", MaxSize := 500, MaxBackups := 3,
    MaxAge := 28, Compress := true }

/-! ## Basic facts -/

theorem Base_ffmpeg : Base "ffmpeg" = "ffmpeg" := by decide

theorem Base_examples :
    Base "/usr/bin/ffmpeg" = "ffmpeg" ∧ Base "a/b/" = "b" ∧ Base "" = "." ∧
      Base "///" = "/" ∧ Base "." = "." := by
  decide

/-- The lookup never touches the arguments. -/
theorem Command_Args (lookPath : String → String × Option String) (name : String)
    (arg : List String) : (Command lookPath name arg).Args = name :: arg := by
  unfold Command
  by_cases hb : Base name = name
  · by_cases h1 : (lookPath name).1 = "" <;> by_cases h2 : (lookPath name).2 = none <;>
      simp [hb, h1, h2]
  · simp [hb]

/-- For a bare name, `Path` is the resolved path when there is one and the name otherwise. -/
theorem Command_Path (lookPath : String → String × Option String) (name : String)
    (arg : List String) (hb : Base name = name) :
    (Command lookPath name arg).Path =
      (if (lookPath name).1 ≠ "" then (lookPath name).1 else name) := by
  unfold Command
  by_cases h1 : (lookPath name).1 = "" <;> by_cases h2 : (lookPath name).2 = none <;>
    simp [hb, h1, h2]

/-- For a bare name, `Err` is the error of the lookup. -/
theorem Command_Err (lookPath : String → String × Option String) (name : String)
    (arg : List String) (hb : Base name = name) :
    (Command lookPath name arg).Err = (lookPath name).2 := by
  unfold Command
  by_cases h1 : (lookPath name).1 = "" <;> by_cases h2 : (lookPath name).2 = none <;>
    simp [hb, h1, h2]

theorem Spawn_Args (p : Process) (mkdirAll : String → Option String)
    (lookPath : String → String × Option String) (path URI : String) :
    (p.Spawn mkdirAll lookPath path URI).Args = "ffmpeg" :: p.processCommands path URI :=
  Command_Args lookPath "ffmpeg" (p.processCommands path URI)

theorem Itoa_sixty : Itoa 60 = "60" := by decide

theorem Itoa_zero : Itoa 0 = "0" := by decide

theorem Itoa_neg_five : Itoa (-5) = "-5" := by decide

/-- Scenario A of the specification, evaluated. -/
theorem scenario_A :
    (NewProcess false true true 0 noLogging).processCommands "/tmp/cam1" "rtsp://x"
      = ["-y", "-rtsp_transport", "tcp", "-i", "rtsp://x", "-c:v", "libx264", "-x264opts",
          "keyint=30:no-scenecut", "-preset", "veryfast", "-c:a", "copy", "-f", "hls",
          "-hls_flags", "delete_segments+append_list", "-segment_list_flags", "live",
          "-hls_time", "1", "-hls_list_size", "3", "-hls_segment_filename",
          "/tmp/cam1/%d.ts", "/tmp/cam1/index.m3u8"] := by
  decide

/-- Scenario B of the specification, evaluated. -/
theorem scenario_B :
    (NewProcess true false false 60 noLogging).processCommands "/tmp/cam1" "rtsp://x"
      = ["-y", "-rtsp_transport", "tcp", "-i", "rtsp://x", "-c:v", "libx264", "-x264opts",
          "keyint=30:no-scenecut", "-preset", "veryfast", "-an", "-t", "60", "-f", "hls",
          "-hls_list_size", "0", "-hls_time", "5", "-hls_segment_filename",
          "/tmp/cam1/%d.ts", "/tmp/cam1/index.m3u8"] := by
  decide

/-! ### Strings -/

theorem digitChar_mod_ten_isDigit (n : Nat) : (Nat.digitChar (n % 10)).isDigit = true := by
  have h : n % 10 < 10 := Nat.mod_lt _ (by decide)
  interval_cases (n % 10) <;> decide

theorem toDigitsCore_isDigit (fuel : Nat) :
    ∀ (n : Nat) (ds : List Char), (∀ c ∈ ds, c.isDigit = true) →
      ∀ c ∈ Nat.toDigitsCore 10 fuel n ds, c.isDigit = true := by
  induction fuel with
  | zero => intro n ds hds c hc; exact hds c (by simpa [Nat.toDigitsCore] using hc)
  | succ k ih =>
    intro n ds hds c hc
    have hcons : ∀ c ∈ Nat.digitChar (n % 10) :: ds, c.isDigit = true := by
      intro c hc
      rcases List.mem_cons.mp hc with rfl | h
      · exact digitChar_mod_ten_isDigit n
      · exact hds c h
    unfold Nat.toDigitsCore at hc
    by_cases h0 : n / 10 = 0
    · simp only [h0, if_true] at hc
      exact hcons c hc
    · simp only [h0, if_false] at hc
      exact ih _ _ hcons c hc

/-- The decimal string of a non-negative integer consists of digits only. -/
theorem Itoa_isDigit (i : Int) (h : 0 ≤ i) : ∀ c ∈ (Itoa i).data, c.isDigit = true := by
  intro c hc
  have hneg : ¬ i < 0 := not_lt.mpr h
  simp only [Itoa, formatBits, hneg, decide_False, Bool.false_eq_true, if_false,
    String.data_append] at hc
  have hc2 : c ∈ Nat.toDigitsCore 10 (i.natAbs + 1) i.natAbs [] := by
    simpa [Nat.toDigits] using hc
  exact toDigitsCore_isDigit _ _ [] (by simp) c hc2

/-- Past its first character, the decimal string of any integer consists of digits only. -/
theorem Itoa_tail_isDigit (i : Int) : ∀ c ∈ (Itoa i).data.tail, c.isDigit = true := by
  intro c hc
  by_cases h : i < 0
  · have hd : (Itoa i).data = '-' :: Nat.toDigitsCore 10 (i.natAbs + 1) i.natAbs [] := by
      simp [Itoa, formatBits, h, Nat.toDigits]
    rw [hd] at hc
    exact toDigitsCore_isDigit _ _ [] (by simp) c hc
  · exact Itoa_isDigit i (not_lt.mp h) c (List.mem_of_mem_tail hc)

theorem Itoa_ne_of_tail_not_isDigit (i : Int) {t : String} (c : Char)
    (hc : c ∈ t.data.tail) (hd : c.isDigit = false) : Itoa i ≠ t := by
  intro he
  have := Itoa_tail_isDigit i c (he ▸ hc)
  simp [hd] at this

theorem Itoa_ne_of_not_isDigit {i : Int} (h : 0 ≤ i) {t : String} (c : Char)
    (hc : c ∈ t.data) (hd : c.isDigit = false) : Itoa i ≠ t := by
  intro he
  have := Itoa_isDigit i h c (he ▸ hc)
  simp [hd] at this

theorem append_ne_of_length_lt (d sfx t : String) (h : t.length < sfx.length) :
    d ++ sfx ≠ t := by
  intro he
  have := congrArg String.length he
  rw [String.length_append] at this
  omega

theorem append_ne_of_not_suffix (d sfx t : String) (h : ¬ sfx.data <:+ t.data) :
    d ++ sfx ≠ t := by
  intro he
  apply h
  rw [← he, String.data_append]
  exact List.suffix_append _ _

/-! ### Positions in a token list -/

theorem pairAt_iff_zip (l : List String) (i : Nat) (a b : String) :
    pairAt l i a b ↔ (l.zip l.tail)[i]? = some (a, b) := by
  simp [pairAt, List.getElem?_zip_eq_some]

theorem exists_pairAt_iff (l : List String) (a b : String) :
    (∃ i, pairAt l i a b) ↔ (a, b) ∈ l.zip l.tail := by
  simp only [pairAt_iff_zip, List.mem_iff_getElem?]

theorem exists_ne_pairAt_iff (l : List String) (k : Nat) (a b : String) :
    (∃ i, i ≠ k ∧ pairAt l i a b) ↔ (a, b) ∈ (l.zip l.tail).eraseIdx k := by
  simp only [pairAt_iff_zip, List.mem_eraseIdx_iff_getElem?]

theorem exists_ne_getElem?_iff (l : List String) (k : Nat) (a : String) :
    (∃ i, i ≠ k ∧ l[i]? = some a) ↔ a ∈ l.eraseIdx k := by
  simp only [List.mem_eraseIdx_iff_getElem?]

theorem getElem?_append_offset (s r : List String) (j : Nat) :
    (s ++ r)[s.length + j]? = r[j]? := by
  rw [List.getElem?_append_right (Nat.le_add_right _ _)]
  simp

/-- When slot `k` of `l` holds a token different from `t`, looking for `t` anywhere in `l`
is looking for it outside slot `k`. -/
theorem exists_getElem?_iff_of_slot (l : List String) (k : Nat) (u t : String)
    (hk : l[k]? = some u) (hne : u ≠ t) :
    (∃ i : Nat, l[i]? = some t) ↔ ∃ i : Nat, i ≠ k ∧ l[i]? = some t := by
  constructor
  · rintro ⟨i, hi⟩
    refine ⟨i, ?_, hi⟩
    rintro rfl
    rw [hk] at hi
    exact hne (Option.some.inj hi)
  · rintro ⟨i, _, hi⟩
    exact ⟨i, hi⟩

/-- The same for an adjacent pair that starts with `t`. -/
theorem pairAt_ne_slot (l : List String) (k : Nat) (u t v : String)
    (hk : l[k]? = some u) (hne : u ≠ t) (i : Nat) (h : pairAt l i t v) : i ≠ k := by
  rintro rfl
  have h1 := h.1
  rw [hk] at h1
  exact hne (Option.some.inj h1)

/-! ### The shape of the argument sequence -/

/-- The sequential appends of `Spawn`, as one right-nested concatenation. -/
theorem processCommands_cases (p : Process) (dir URI : String) :
    p.processCommands dir URI =
      ["-y", "-rtsp_transport", "tcp", "-i", URI, "-c:v", "libx264", "-x264opts",
        "keyint=30:no-scenecut", "-preset", "veryfast"] ++
      ((if p.audio then ["-c:a", "copy"] else ["-an"]) ++
      ((if p.streamDuration > 0 then ["-t", Itoa p.streamDuration] else []) ++
      (["-f", "hls"] ++
      ((if p.live then ["-hls_flags", p.getHLSFlags, "-segment_list_flags", "live",
          "-hls_time", "1", "-hls_list_size", "3"]
        else ["-hls_list_size", "0", "-hls_time", "5"]) ++
      ["-hls_segment_filename", dir ++ "/%d.ts", dir ++ "/index.m3u8"])))) := by
  unfold Process.processCommands
  cases p.audio <;> cases p.live <;> by_cases h : p.streamDuration > 0 <;> simp [h]

/-- Everything before the terminal group, followed by the terminal group. -/
theorem processCommands_terminal (p : Process) (dir URI : String) :
    ∃ front : List String,
      p.processCommands dir URI =
        front ++ ["-hls_segment_filename", dir ++ "/%d.ts", dir ++ "/index.m3u8"] := by
  refine ⟨inputVideoGroup URI ++ audioGroup p.audio ++ durationGroup p.streamDuration ++
    formatGroup ++ modeGroup p, ?_⟩
  unfold Process.processCommands inputVideoGroup audioGroup durationGroup formatGroup modeGroup
  cases p.audio <;> cases p.live <;> by_cases h : p.streamDuration > 0 <;> simp [h]

/-- The sequence split in front of the mode group. -/
theorem processCommands_split_mode (p : Process) (dir URI : String) :
    p.processCommands dir URI =
      (inputVideoGroup URI ++ audioGroup p.audio ++ durationGroup p.streamDuration ++
        formatGroup) ++ (modeGroup p ++ terminalGroup dir) := by
  rw [processCommands_cases]
  simp only [inputVideoGroup, audioGroup, durationGroup, formatGroup, modeGroup,
    terminalGroup, List.append_assoc]

/-- The sequence split in front of the format group. -/
theorem processCommands_split_format (p : Process) (dir URI : String) :
    p.processCommands dir URI =
      (inputVideoGroup URI ++ audioGroup p.audio ++ durationGroup p.streamDuration) ++
        (formatGroup ++ (modeGroup p ++ terminalGroup dir)) := by
  rw [processCommands_cases]
  simp only [inputVideoGroup, audioGroup, durationGroup, formatGroup, modeGroup,
    terminalGroup, List.append_assoc]

/-- The caller's strings occupy three slots: the URI after the first four tokens, and the
two paths at the end; what lies between depends on the configuration only. -/
theorem processCommands_slots (p : Process) :
    ∃ mid : List String, ∀ dir URI : String,
      p.processCommands dir URI =
        ["-y", "-rtsp_transport", "tcp", "-i"] ++
          URI :: (mid ++ [dir ++ "/%d.ts", dir ++ "/index.m3u8"]) := by
  refine ⟨["-c:v", "libx264", "-x264opts", "keyint=30:no-scenecut", "-preset", "veryfast"] ++
    (audioGroup p.audio ++ (durationGroup p.streamDuration ++ (formatGroup ++
      (modeGroup p ++ ["-hls_segment_filename"])))), fun dir URI => ?_⟩
  rw [processCommands_cases]
  simp only [audioGroup, durationGroup, formatGroup, modeGroup, List.append_assoc,
    List.cons_append, List.nil_append]

/-- The number of tokens, from the configuration. -/
theorem processCommands_length (p : Process) (dir URI : String) :
    (p.processCommands dir URI).length =
      16 + (if p.audio = true then 2 else 1) + (if p.streamDuration > 0 then 2 else 0) +
        (if p.live = true then 8 else 4) := by
  rw [processCommands_cases]
  cases p.audio <;> cases p.live <;> by_cases h : p.streamDuration > 0 <;> simp [h]

/-- Two token lists that differ in one slot and in their last two tokens agree everywhere
else. -/
theorem getElem?_eq_off_slots (a b : List String) (u1 u2 s1 s2 t1 t2 : String) (i : Nat)
    (h0 : i ≠ a.length) (h1 : i ≠ a.length + 1 + b.length)
    (h2 : i ≠ a.length + 1 + b.length + 1) :
    (a ++ u1 :: (b ++ [s1, t1]))[i]? = (a ++ u2 :: (b ++ [s2, t2]))[i]? := by
  rcases Nat.lt_or_ge i a.length with hlt | hge
  · rw [List.getElem?_append_left hlt, List.getElem?_append_left hlt]
  · rw [List.getElem?_append_right hge, List.getElem?_append_right hge]
    obtain ⟨j, hj⟩ : ∃ j, i - a.length = j + 1 := ⟨i - a.length - 1, by omega⟩
    rw [hj, List.getElem?_cons_succ, List.getElem?_cons_succ]
    rcases Nat.lt_or_ge j b.length with hjlt | hjge
    · rw [List.getElem?_append_left hjlt, List.getElem?_append_left hjlt]
    · rw [List.getElem?_append_right hjge, List.getElem?_append_right hjge]
      obtain ⟨m, hm⟩ : ∃ m, j - b.length = m + 2 := ⟨j - b.length - 2, by omega⟩
      rw [hm]
      rfl

/-! ## The claims -/

/-- C1: the argument sequence built by Spawn is the concatenation, in this order, of the
input/video group, the audio group, the duration group, the format group, the mode group
and the terminal group. -/
theorem processCommands_eq_groups (p : Process) (dir URI : String) :
    p.processCommands dir URI =
      inputVideoGroup URI ++ audioGroup p.audio ++ durationGroup p.streamDuration ++
        formatGroup ++ modeGroup p ++ terminalGroup dir := by
  unfold Process.processCommands inputVideoGroup audioGroup durationGroup formatGroup
    modeGroup terminalGroup
  cases p.audio <;> cases p.live <;> by_cases h : p.streamDuration > 0 <;> simp [h]

/-- C2: the argument sequence has at least three tokens; its last token is
`dir ++ "/index.m3u8"`, its second-to-last token is `dir ++ "/%d.ts"`, which starts with
`dir` and ends in `%d.ts`, and the token before those two is `-hls_segment_filename`. -/
theorem terminal_tokens (p : Process) (dir URI : String) :
    3 ≤ (p.processCommands dir URI).length ∧
    (p.processCommands dir URI)[(p.processCommands dir URI).length - 1]?
      = some (dir ++ "/index.m3u8") ∧
    (p.processCommands dir URI)[(p.processCommands dir URI).length - 2]?
      = some (dir ++ "/%d.ts") ∧
    (p.processCommands dir URI)[(p.processCommands dir URI).length - 3]?
      = some "-hls_segment_filename" ∧
    dir.data <+: (dir ++ "/%d.ts").data ∧
    "%d.ts".data <:+ (dir ++ "/%d.ts").data := by
  obtain ⟨front, hfront⟩ := processCommands_terminal p dir URI
  have hlen : (p.processCommands dir URI).length = front.length + 3 := by
    rw [hfront]; simp
  have h1 : front.length + 3 - 1 = front.length + 2 := by omega
  have h2 : front.length + 3 - 2 = front.length + 1 := by omega
  have h3 : front.length + 3 - 3 = front.length + 0 := by omega
  refine ⟨by omega, ?_, ?_, ?_, ?_, ?_⟩
  · rw [hlen, h1, hfront, getElem?_append_offset]; rfl
  · rw [hlen, h2, hfront, getElem?_append_offset]; rfl
  · rw [hlen, h3, hfront, getElem?_append_offset]; rfl
  · rw [String.data_append]; exact List.prefix_append _ _
  · exact ⟨dir.data ++ ['/'], by rw [String.data_append]; simp⟩

/-- C2, at the directory of Scenario A: the sequence ends in `/tmp/cam1/%d.ts`,
`/tmp/cam1/index.m3u8`. -/
theorem terminal_tokens_cam1 :
    ((NewProcess false true true 0 noLogging).processCommands "/tmp/cam1" "rtsp://x")[25]?
      = some "/tmp/cam1/index.m3u8" ∧
    ((NewProcess false true true 0 noLogging).processCommands "/tmp/cam1" "rtsp://x")[24]?
      = some "/tmp/cam1/%d.ts" ∧
    ((NewProcess false true true 0 noLogging).processCommands "/tmp/cam1" "rtsp://x")[23]?
      = some "-hls_segment_filename" := by
  have h := terminal_tokens (NewProcess false true true 0 noLogging) "/tmp/cam1" "rtsp://x"
  have hl : ((NewProcess false true true 0 noLogging).processCommands
      "/tmp/cam1" "rtsp://x").length = 26 := by decide
  rw [hl] at h
  exact ⟨h.2.1, h.2.2.1, h.2.2.2.1⟩

/-- C3 as stated fails: with audio switched on and the source URI `-an`, the token `-an`
is in the sequence (at index 4) although audio is true. -/
theorem audio_toggle_counterexample :
    ¬ ((∃ i : Nat, ((NewProcess false true true 0 noLogging).processCommands "/tmp/cam1" "-an")[i]?
          = some "-an") ↔
        (NewProcess false true true 0 noLogging).audio = false) := by
  intro h
  have hf : (NewProcess false true true 0 noLogging).audio = false := h.mp ⟨4, by decide⟩
  exact absurd hf (by decide)

/-- C3, amended: the sequence contains the adjacent pair `-c:a`, `copy` if and only if audio
is true; it contains the token `-an` at an index other than 4 if and only if audio is false;
so exactly one of the two appears outside index 4. Index 4 holds the caller's URI, and when
the URI is not `-an` the token `-an` is in the sequence if and only if audio is false. -/
theorem audio_toggle (p : Process) (dir URI : String) :
    ((∃ i, pairAt (p.processCommands dir URI) i "-c:a" "copy") ↔ p.audio = true) ∧
    ((∃ i, i ≠ 4 ∧ (p.processCommands dir URI)[i]? = some "-an") ↔ p.audio = false) ∧
    (((∃ i, pairAt (p.processCommands dir URI) i "-c:a" "copy") ∧
        ¬ ∃ i, i ≠ 4 ∧ (p.processCommands dir URI)[i]? = some "-an") ∨
      ((¬ ∃ i, pairAt (p.processCommands dir URI) i "-c:a" "copy") ∧
        ∃ i, i ≠ 4 ∧ (p.processCommands dir URI)[i]? = some "-an")) ∧
    (p.processCommands dir URI)[4]? = some URI ∧
    (URI ≠ "-an" →
      ((∃ i : Nat, (p.processCommands dir URI)[i]? = some "-an") ↔ p.audio = false)) := by
  have hpl : dir ++ "/index.m3u8" ≠ "copy" := append_ne_of_length_lt _ _ _ (by decide)
  have hpl2 : dir ++ "/index.m3u8" ≠ "-an" := append_ne_of_length_lt _ _ _ (by decide)
  have hseg : dir ++ "/%d.ts" ≠ "-an" := append_ne_of_length_lt _ _ _ (by decide)
  have hslot : (p.processCommands dir URI)[4]? = some URI := by
    rw [processCommands_cases]; rfl
  have h12 : ((∃ i, pairAt (p.processCommands dir URI) i "-c:a" "copy") ↔ p.audio = true) ∧
      ((∃ i, i ≠ 4 ∧ (p.processCommands dir URI)[i]? = some "-an") ↔ p.audio = false) := by
    rw [exists_pairAt_iff, exists_ne_getElem?_iff, processCommands_cases]
    rcases p with ⟨k, a, l, sd, o⟩
    by_cases h : sd > 0
    · have hi : Itoa sd ≠ "-an" :=
        Itoa_ne_of_not_isDigit (le_of_lt h) '-' (by decide) (by decide)
      cases k <;> cases a <;> cases l <;>
        simp [h, Process.getHLSFlags, hpl, hpl2, hseg, hi, Ne.symm hpl, Ne.symm hpl2,
          Ne.symm hseg, Ne.symm hi]
    · cases k <;> cases a <;> cases l <;>
        simp [h, Process.getHLSFlags, hpl, hpl2, hseg, Ne.symm hpl, Ne.symm hpl2,
          Ne.symm hseg]
  obtain ⟨h1, h2⟩ := h12
  refine ⟨h1, h2, ?_, hslot, ?_⟩
  · rw [h1, h2]
    cases p.audio <;> simp
  · intro hne
    rw [exists_getElem?_iff_of_slot _ 4 URI "-an" hslot hne]
    exact h2

/-- C3, amended, at Scenario A with a URI that is not `-an`: the copy-audio pair is there
and `-an` is nowhere in the sequence. -/
theorem audio_toggle_witness :
    (∃ i, pairAt ((NewProcess false true true 0 noLogging).processCommands
        "/tmp/cam1" "rtsp://x") i "-c:a" "copy") ∧
    ¬ ∃ i : Nat, ((NewProcess false true true 0 noLogging).processCommands
        "/tmp/cam1" "rtsp://x")[i]? = some "-an" := by
  have h := audio_toggle (NewProcess false true true 0 noLogging) "/tmp/cam1" "rtsp://x"
  refine ⟨h.1.mpr rfl, fun hx => ?_⟩
  exact absurd ((h.2.2.2.2 (by decide)).mp hx) (by decide)

/-- C4 as stated fails: with no duration cap (streamDuration 0) and the source URI `-t`,
position 4 holds `-t` immediately followed by a token; and with streamDuration 60 and the
source URI `-t`, the token that follows the `-t` at position 4 is `-c:v`, not `60`. -/
theorem duration_toggle_counterexample :
    ¬ ((∃ i v, pairAt ((NewProcess false true true 0 noLogging).processCommands
          "/tmp/cam1" "-t") i "-t" v) ↔
        (NewProcess false true true 0 noLogging).streamDuration > 0) ∧
    (pairAt ((NewProcess false true true 60 noLogging).processCommands
          "/tmp/cam1" "-t") 4 "-t" "-c:v" ∧ "-c:v" ≠ Itoa 60) := by
  refine ⟨fun h => ?_, by decide, by decide⟩
  have hf : (NewProcess false true true 0 noLogging).streamDuration > 0 :=
    h.mp ⟨4, "-c:v", by decide⟩
  exact absurd hf (by decide)

/-- C4, amended: outside index 4 (the URI slot) the sequence has a position holding `-t`
immediately followed by a token if and only if streamDuration > 0, that token is then the
decimal string of streamDuration, and for streamDuration 0 or negative no token outside
index 4 is `-t`. When the URI is not `-t` the same holds over all positions. For every
URI, `-t` immediately followed by the decimal string of streamDuration occurs if and only
if streamDuration > 0. -/
theorem duration_toggle (p : Process) (dir URI : String) :
    ((∃ i v, i ≠ 4 ∧ pairAt (p.processCommands dir URI) i "-t" v) ↔ p.streamDuration > 0) ∧
    (∀ i v, i ≠ 4 → pairAt (p.processCommands dir URI) i "-t" v →
      v = Itoa p.streamDuration) ∧
    ((∃ i, i ≠ 4 ∧ (p.processCommands dir URI)[i]? = some "-t") ↔ p.streamDuration > 0) ∧
    (URI ≠ "-t" →
      ((∃ i v, pairAt (p.processCommands dir URI) i "-t" v) ↔ p.streamDuration > 0) ∧
      (∀ i v, pairAt (p.processCommands dir URI) i "-t" v → v = Itoa p.streamDuration)) ∧
    ((∃ i, pairAt (p.processCommands dir URI) i "-t" (Itoa p.streamDuration)) ↔
      p.streamDuration > 0) := by
  have hpl : dir ++ "/index.m3u8" ≠ "-t" := append_ne_of_length_lt _ _ _ (by decide)
  have hsg : dir ++ "/%d.ts" ≠ "-t" := append_ne_of_length_lt _ _ _ (by decide)
  have h4 : (∃ i, pairAt (p.processCommands dir URI) i "-t" (Itoa p.streamDuration)) ↔
      p.streamDuration > 0 := by
    rw [exists_pairAt_iff, processCommands_cases]
    rcases p with ⟨k, a, l, sd, o⟩
    have hcv : Itoa sd ≠ "-c:v" :=
      Itoa_ne_of_tail_not_isDigit _ 'c' (by decide) (by decide)
    by_cases h : sd > 0
    · cases k <;> cases a <;> cases l <;> simp [h]
    · cases k <;> cases a <;> cases l <;>
        simp [h, Process.getHLSFlags, hpl, hsg, hcv, Ne.symm hpl, Ne.symm hsg, Ne.symm hcv]
  have hseg : dir ++ "/%d.ts" ≠ "-t" := append_ne_of_length_lt _ _ _ (by decide)
  have hslot : (p.processCommands dir URI)[4]? = some URI := by
    rw [processCommands_cases]; rfl
  have h2 : ∀ v, (∃ i, i ≠ 4 ∧ pairAt (p.processCommands dir URI) i "-t" v) →
      0 < p.streamDuration ∧ v = Itoa p.streamDuration := by
    intro v
    rw [exists_ne_pairAt_iff, processCommands_cases]
    rcases p with ⟨k, a, l, sd, o⟩
    by_cases h : sd > 0
    · have hi : Itoa sd ≠ "-t" :=
        Itoa_ne_of_not_isDigit (le_of_lt h) '-' (by decide) (by decide)
      cases k <;> cases a <;> cases l <;>
        simp [h, Process.getHLSFlags, hpl, hseg, hi, Ne.symm hpl, Ne.symm hseg, Ne.symm hi]
    · cases k <;> cases a <;> cases l <;>
        simp [h, Process.getHLSFlags, hpl, hseg, Ne.symm hpl, Ne.symm hseg]
  have h3 : (∃ i, i ≠ 4 ∧ (p.processCommands dir URI)[i]? = some "-t") ↔
      p.streamDuration > 0 := by
    rw [exists_ne_getElem?_iff, processCommands_cases]
    rcases p with ⟨k, a, l, sd, o⟩
    by_cases h : sd > 0
    · cases k <;> cases a <;> cases l <;> simp [h]
    · cases k <;> cases a <;> cases l <;>
        simp [h, Process.getHLSFlags, hpl, hseg, Ne.symm hpl, Ne.symm hseg]
  have h1 : p.streamDuration > 0 →
      ∃ i v, i ≠ 4 ∧ pairAt (p.processCommands dir URI) i "-t" v := by
    intro h
    refine ⟨(["-y", "-rtsp_transport", "tcp", "-i", URI, "-c:v", "libx264", "-x264opts",
        "keyint=30:no-scenecut", "-preset", "veryfast"] ++
          (if p.audio then ["-c:a", "copy"] else ["-an"])).length + 0,
      Itoa p.streamDuration, ?_, ?_, ?_⟩
    · cases p.audio <;> simp
    · rw [processCommands_cases, ← List.append_assoc, getElem?_append_offset, if_pos h]
      rfl
    · rw [processCommands_cases, ← List.append_assoc, Nat.add_assoc, getElem?_append_offset,
        if_pos h]
      rfl
  refine ⟨⟨fun ⟨i, v, hi, hp⟩ => (h2 v ⟨i, hi, hp⟩).1, h1⟩,
    fun i v hi hp => (h2 v ⟨i, hi, hp⟩).2, h3, fun hne => ⟨⟨?_, ?_⟩, ?_⟩, h4⟩
  · rintro ⟨i, v, hp⟩
    exact (h2 v ⟨i, pairAt_ne_slot _ 4 URI "-t" v hslot hne i hp, hp⟩).1
  · intro h
    obtain ⟨i, v, _, hp⟩ := h1 h
    exact ⟨i, v, hp⟩
  · intro i v hp
    exact (h2 v ⟨i, pairAt_ne_slot _ 4 URI "-t" v hslot hne i hp, hp⟩).2

/-- C4, amended, at Scenario B: the pair `-t`, `60` is in the sequence, and every `-t`
is followed by `60`. -/
theorem duration_toggle_witness :
    (∃ i v, pairAt ((NewProcess true false false 60 noLogging).processCommands
        "/tmp/cam1" "rtsp://x") i "-t" v) ∧
    ∀ i v, pairAt ((NewProcess true false false 60 noLogging).processCommands
        "/tmp/cam1" "rtsp://x") i "-t" v → v = "60" := by
  have h := (duration_toggle (NewProcess true false false 60 noLogging)
    "/tmp/cam1" "rtsp://x").2.2.2.1 (by decide)
  exact ⟨h.1.mpr (by decide), fun i v hp => (h.2 i v hp).trans (by decide)⟩

/-- C5 as stated fails: for streamDuration 0 and for streamDuration -5 the sequence has no
position where `-t` is immediately followed by the decimal string of streamDuration. -/
theorem duration_passthrough_counterexample :
    (¬ ∃ i, pairAt ((NewProcess false true true 0 noLogging).processCommands
        "/tmp/cam1" "rtsp://x") i "-t" (Itoa 0)) ∧
    (¬ ∃ i, pairAt ((NewProcess false true true (-5) noLogging).processCommands
        "/tmp/cam1" "rtsp://x") i "-t" (Itoa (-5))) := by
  constructor <;> (rw [exists_pairAt_iff]; decide)

/-- C5, amended: every streamDuration > 0 is passed through to the duration flag without
further validation, the sequence containing `-t` immediately followed by the decimal string
of streamDuration; for streamDuration 0 or negative no token outside index 4 (the URI slot)
is `-t`. -/
theorem duration_passthrough (p : Process) (dir URI : String) :
    (p.streamDuration > 0 →
      ∃ i, pairAt (p.processCommands dir URI) i "-t" (Itoa p.streamDuration)) ∧
    (p.streamDuration ≤ 0 →
      ¬ ∃ i : Nat, i ≠ 4 ∧ (p.processCommands dir URI)[i]? = some "-t") := by
  have hpl : dir ++ "/index.m3u8" ≠ "-t" := append_ne_of_length_lt _ _ _ (by decide)
  have hseg : dir ++ "/%d.ts" ≠ "-t" := append_ne_of_length_lt _ _ _ (by decide)
  constructor
  · intro h
    rw [exists_pairAt_iff, processCommands_cases]
    rcases p with ⟨k, a, l, sd, o⟩
    cases a <;> cases l <;> simp [h]
  · intro h
    have h0 : ¬ p.streamDuration > 0 := not_lt.mpr h
    rw [exists_ne_getElem?_iff, processCommands_cases]
    rcases p with ⟨k, a, l, sd, o⟩
    cases k <;> cases a <;> cases l <;>
      simp [h0, Process.getHLSFlags, hpl, hseg, Ne.symm hpl, Ne.symm hseg]

/-- C5, amended, at streamDuration 60 and at streamDuration -5. -/
theorem duration_passthrough_witness :
    (∃ i, pairAt ((NewProcess true false false 60 noLogging).processCommands
        "/tmp/cam1" "rtsp://x") i "-t" (Itoa 60)) ∧
    (¬ ∃ i : Nat, i ≠ 4 ∧ ((NewProcess true false false (-5) noLogging).processCommands
        "/tmp/cam1" "rtsp://x")[i]? = some "-t") :=
  ⟨(duration_passthrough (NewProcess true false false 60 noLogging)
      "/tmp/cam1" "rtsp://x").1 (by decide),
    (duration_passthrough (NewProcess true false false (-5) noLogging)
      "/tmp/cam1" "rtsp://x").2 (by decide)⟩

/-- C6: in live mode the sequence contains the adjacent pairs `-segment_list_flags`, `live`
and `-hls_time`, `1` and `-hls_list_size`, `3`, and has no position where `-hls_list_size`
is immediately followed by `0`. -/
theorem live_mode_flags (p : Process) (dir URI : String) (h : p.live = true) :
    (∃ i, pairAt (p.processCommands dir URI) i "-segment_list_flags" "live") ∧
    (∃ i, pairAt (p.processCommands dir URI) i "-hls_time" "1") ∧
    (∃ i, pairAt (p.processCommands dir URI) i "-hls_list_size" "3") ∧
    ¬ ∃ i, pairAt (p.processCommands dir URI) i "-hls_list_size" "0" := by
  have hpl0 : dir ++ "/index.m3u8" ≠ "0" := append_ne_of_length_lt _ _ _ (by decide)
  simp only [exists_pairAt_iff]
  rw [processCommands_cases]
  rcases p with ⟨k, a, l, sd, o⟩
  simp only at h
  subst h
  by_cases hd : sd > 0 <;> cases k <;> cases a <;>
    simp [hd, Process.getHLSFlags, hpl0, Ne.symm hpl0]

/-- C6 at Scenario A. -/
theorem live_mode_flags_witness :
    (NewProcess false true true 0 noLogging).live = true ∧
    (∃ i, pairAt ((NewProcess false true true 0 noLogging).processCommands
        "/tmp/cam1" "rtsp://x") i "-hls_list_size" "3") ∧
    ¬ ∃ i, pairAt ((NewProcess false true true 0 noLogging).processCommands
        "/tmp/cam1" "rtsp://x") i "-hls_list_size" "0" :=
  ⟨rfl,
    (live_mode_flags (NewProcess false true true 0 noLogging) "/tmp/cam1" "rtsp://x" rfl).2.2.1,
    (live_mode_flags (NewProcess false true true 0 noLogging) "/tmp/cam1" "rtsp://x" rfl).2.2.2⟩

/-- C7: in finite mode the sequence contains the four consecutive tokens `-hls_list_size`,
`0`, `-hls_time`, `5`, and has no position where `-segment_list_flags` is immediately
followed by `live`. -/
theorem finite_mode_flags (p : Process) (dir URI : String) (h : p.live = false) :
    (∃ i : Nat, (p.processCommands dir URI)[i]? = some "-hls_list_size" ∧
      (p.processCommands dir URI)[i + 1]? = some "0" ∧
      (p.processCommands dir URI)[i + 2]? = some "-hls_time" ∧
      (p.processCommands dir URI)[i + 3]? = some "5") ∧
    ¬ ∃ i, pairAt (p.processCommands dir URI) i "-segment_list_flags" "live" := by
  have hpl : dir ++ "/index.m3u8" ≠ "live" := append_ne_of_length_lt _ _ _ (by decide)
  have hmode : modeGroup p = ["-hls_list_size", "0", "-hls_time", "5"] := by
    simp [modeGroup, h]
  have hw : ∀ j, (p.processCommands dir URI)[(inputVideoGroup URI ++ audioGroup p.audio ++
      durationGroup p.streamDuration ++ formatGroup).length + j]? =
      (["-hls_list_size", "0", "-hls_time", "5"] ++ terminalGroup dir)[j]? := by
    intro j
    rw [processCommands_split_mode, getElem?_append_offset, hmode]
  refine ⟨⟨_, hw 0, hw 1, hw 2, hw 3⟩, ?_⟩
  rw [exists_pairAt_iff, processCommands_cases]
  rcases p with ⟨k, a, l, sd, o⟩
  simp only at h
  subst h
  by_cases hd : sd > 0 <;> cases k <;> cases a <;>
    simp [hd, Process.getHLSFlags, hpl, Ne.symm hpl]

/-- C7 at Scenario B: the four tokens stand at positions 16 to 19. -/
theorem finite_mode_flags_witness :
    (NewProcess true false false 60 noLogging).live = false ∧
    (∃ i : Nat, ((NewProcess true false false 60 noLogging).processCommands
        "/tmp/cam1" "rtsp://x")[i]? = some "-hls_list_size" ∧
      ((NewProcess true false false 60 noLogging).processCommands
        "/tmp/cam1" "rtsp://x")[i + 1]? = some "0" ∧
      ((NewProcess true false false 60 noLogging).processCommands
        "/tmp/cam1" "rtsp://x")[i + 2]? = some "-hls_time" ∧
      ((NewProcess true false false 60 noLogging).processCommands
        "/tmp/cam1" "rtsp://x")[i + 3]? = some "5") :=
  ⟨rfl,
    (finite_mode_flags (NewProcess true false false 60 noLogging) "/tmp/cam1" "rtsp://x" rfl).1⟩

/-- C8: in live mode the sequence contains `-hls_flags` immediately after the pair `-f`,
`hls`, and the token that follows it is `append_list` when keepFiles is true and
`delete_segments+append_list` when keepFiles is false, the value of getHLSFlags; outside
index 4 (the URI slot) every `-hls_flags` token is followed by that value. -/
theorem retention_policy (p : Process) (dir URI : String) (h : p.live = true) :
    (∃ i : Nat, (p.processCommands dir URI)[i]? = some "-f" ∧
      (p.processCommands dir URI)[i + 1]? = some "hls" ∧
      (p.processCommands dir URI)[i + 2]? = some "-hls_flags" ∧
      (p.processCommands dir URI)[i + 3]? =
        some (if p.keepFiles = true then "append_list" else "delete_segments+append_list")) ∧
    p.getHLSFlags =
      (if p.keepFiles = true then "append_list" else "delete_segments+append_list") ∧
    (∀ i v, i ≠ 4 → pairAt (p.processCommands dir URI) i "-hls_flags" v →
      v = (if p.keepFiles = true then "append_list" else "delete_segments+append_list")) := by
  have hpl : dir ++ "/index.m3u8" ≠ "-hls_flags" :=
    append_ne_of_length_lt _ _ _ (by decide)
  have hseg : dir ++ "/%d.ts" ≠ "-hls_flags" := append_ne_of_not_suffix _ _ _ (by decide)
  have hmode : formatGroup ++ (modeGroup p ++ terminalGroup dir) =
      "-f" :: "hls" :: "-hls_flags" ::
        (if p.keepFiles = true then "append_list" else "delete_segments+append_list") ::
        (["-segment_list_flags", "live", "-hls_time", "1", "-hls_list_size", "3"] ++
          terminalGroup dir) := by
    simp [formatGroup, modeGroup, Process.getHLSFlags, h]
  have hw : ∀ j, (p.processCommands dir URI)[(inputVideoGroup URI ++ audioGroup p.audio ++
      durationGroup p.streamDuration).length + j]? =
      ("-f" :: "hls" :: "-hls_flags" ::
        (if p.keepFiles = true then "append_list" else "delete_segments+append_list") ::
        (["-segment_list_flags", "live", "-hls_time", "1", "-hls_list_size", "3"] ++
          terminalGroup dir))[j]? := by
    intro j
    rw [processCommands_split_format, getElem?_append_offset, hmode]
  refine ⟨⟨_, hw 0, hw 1, hw 2, hw 3⟩, rfl, ?_⟩
  have key : ∀ v, (∃ i, i ≠ 4 ∧ pairAt (p.processCommands dir URI) i "-hls_flags" v) →
      v = (if p.keepFiles = true then "append_list" else "delete_segments+append_list") := by
    intro v
    rw [exists_ne_pairAt_iff, processCommands_cases]
    rcases p with ⟨k, a, l, sd, o⟩
    simp only at h
    subst h
    by_cases hd : sd > 0
    · have hi : Itoa sd ≠ "-hls_flags" :=
        Itoa_ne_of_not_isDigit (le_of_lt hd) '-' (by decide) (by decide)
      cases k <;> cases a <;>
        simp [hd, Process.getHLSFlags, hpl, hseg, hi, Ne.symm hpl, Ne.symm hseg, Ne.symm hi]
    · cases k <;> cases a <;>
        simp [hd, Process.getHLSFlags, hpl, hseg, Ne.symm hpl, Ne.symm hseg]
  exact fun i v hi hp => key v ⟨i, hi, hp⟩

/-- C8 at Scenario A (keepFiles false) and at its keepFiles-true variant. -/
theorem retention_policy_witness :
    (∃ i : Nat,
      ((NewProcess false true true 0 noLogging).processCommands "/tmp/cam1" "rtsp://x")[i]?
        = some "-f" ∧
      ((NewProcess false true true 0 noLogging).processCommands "/tmp/cam1" "rtsp://x")[i + 1]?
        = some "hls" ∧
      ((NewProcess false true true 0 noLogging).processCommands "/tmp/cam1" "rtsp://x")[i + 2]?
        = some "-hls_flags" ∧
      ((NewProcess false true true 0 noLogging).processCommands "/tmp/cam1" "rtsp://x")[i + 3]?
        = some "delete_segments+append_list") ∧
    (∃ i : Nat,
      ((NewProcess true true true 0 noLogging).processCommands "/tmp/cam1" "rtsp://x")[i]?
        = some "-f" ∧
      ((NewProcess true true true 0 noLogging).processCommands "/tmp/cam1" "rtsp://x")[i + 1]?
        = some "hls" ∧
      ((NewProcess true true true 0 noLogging).processCommands "/tmp/cam1" "rtsp://x")[i + 2]?
        = some "-hls_flags" ∧
      ((NewProcess true true true 0 noLogging).processCommands "/tmp/cam1" "rtsp://x")[i + 3]?
        = some "append_list") :=
  ⟨(retention_policy (NewProcess false true true 0 noLogging) "/tmp/cam1" "rtsp://x" rfl).1,
    (retention_policy (NewProcess true true true 0 noLogging) "/tmp/cam1" "rtsp://x" rfl).1⟩

/-- C9 as stated fails: in finite mode with the source URI `-hls_flags`, the token at
index 4 equals `-hls_flags`. -/
theorem finite_no_hls_flags_counterexample :
    (NewProcess true false false 60 noLogging).live = false ∧
    ¬ ∀ t ∈ (NewProcess true false false 60 noLogging).processCommands
        "/tmp/cam1" "-hls_flags", t ≠ "-hls_flags" := by
  decide

/-- C9, amended: in finite mode no token of the sequence at an index other than 4 (the URI
slot) equals `-hls_flags`; when the URI is not `-hls_flags`, no token at all does. -/
theorem finite_no_hls_flags (p : Process) (dir URI : String) (h : p.live = false) :
    (∀ i : Nat, i ≠ 4 → (p.processCommands dir URI)[i]? ≠ some "-hls_flags") ∧
    (URI ≠ "-hls_flags" → ∀ t ∈ p.processCommands dir URI, t ≠ "-hls_flags") := by
  have hpl : dir ++ "/index.m3u8" ≠ "-hls_flags" :=
    append_ne_of_length_lt _ _ _ (by decide)
  have hseg : dir ++ "/%d.ts" ≠ "-hls_flags" := append_ne_of_not_suffix _ _ _ (by decide)
  have hslot : (p.processCommands dir URI)[4]? = some URI := by
    rw [processCommands_cases]; rfl
  have key : ¬ ∃ i : Nat, i ≠ 4 ∧ (p.processCommands dir URI)[i]? = some "-hls_flags" := by
    rw [exists_ne_getElem?_iff, processCommands_cases]
    rcases p with ⟨k, a, l, sd, o⟩
    simp only at h
    subst h
    by_cases hd : sd > 0
    · have hi : Itoa sd ≠ "-hls_flags" :=
        Itoa_ne_of_not_isDigit (le_of_lt hd) '-' (by decide) (by decide)
      cases a <;> simp [hd, hpl, hseg, hi, Ne.symm hpl, Ne.symm hseg, Ne.symm hi]
    · cases a <;> simp [hd, hpl, hseg, Ne.symm hpl, Ne.symm hseg]
  refine ⟨fun i hi hx => key ⟨i, hi, hx⟩, fun hne t ht hx => ?_⟩
  subst hx
  exact key ((exists_getElem?_iff_of_slot _ 4 URI "-hls_flags" hslot hne).mp
    (List.mem_iff_getElem?.mp ht))

/-- C9, amended, at the configuration keepFiles=true, audio=false, live=false,
streamDuration=60 with an RTSP URI: no token equals `-hls_flags`. -/
theorem finite_no_hls_flags_witness :
    (NewProcess true false false 60 noLogging).live = false ∧
    ∀ t ∈ (NewProcess true false false 60 noLogging).processCommands "/tmp/cam1" "rtsp://x",
      t ≠ "-hls_flags" :=
  ⟨rfl, (finite_no_hls_flags (NewProcess true false false 60 noLogging)
    "/tmp/cam1" "rtsp://x" rfl).2 (by decide)⟩

/-- C10: the first eleven tokens of the sequence are `-y`, `-rtsp_transport`, `tcp`, `-i`,
the URI, `-c:v`, `libx264`, `-x264opts`, `keyint=30:no-scenecut`, `-preset`, `veryfast`; the
URI is the single token at index 4, directly after `-i` at index 3. -/
theorem fixed_head (p : Process) (dir URI : String) :
    (p.processCommands dir URI).take 11 =
      ["-y", "-rtsp_transport", "tcp", "-i", URI, "-c:v", "libx264", "-x264opts",
        "keyint=30:no-scenecut", "-preset", "veryfast"] ∧
    11 ≤ (p.processCommands dir URI).length ∧
    (p.processCommands dir URI)[3]? = some "-i" ∧
    (p.processCommands dir URI)[4]? = some URI ∧
    (p.processCommands dir URI)[5]? = some "-c:v" := by
  rw [processCommands_cases]
  refine ⟨rfl, ?_, rfl, rfl, rfl⟩
  simp only [List.length_append, List.length_cons, List.length_nil]
  omega

/-- C11: Spawn always returns a command descriptor, whatever `os.MkdirAll` yields. The
descriptor is the one `exec.Command` builds for the name `ffmpeg`: its `Args[0]` is
`ffmpeg`, its remaining arguments are the argument sequence, its `Path` is `ffmpeg` as the
environment resolves it (the name itself when it is not found) and its `Err` is the error
of that lookup, never the error of the directory creation. The descriptor is the same for
any two outcomes of the directory creation, in particular for success and for an error,
and the arguments are the same in every environment. -/
theorem Spawn_ignores_mkdir (p : Process) (mk1 mk2 : String → Option String)
    (lookPath : String → String × Option String) (dir URI : String) :
    (∃ cmd : Cmd, p.Spawn mk1 lookPath dir URI = cmd ∧
      cmd = Command lookPath "ffmpeg" (p.processCommands dir URI) ∧
      cmd.Args.head? = some "ffmpeg" ∧ cmd.Args.tail = p.processCommands dir URI ∧
      cmd.Path = (if (lookPath "ffmpeg").1 ≠ "" then (lookPath "ffmpeg").1 else "ffmpeg") ∧
      cmd.Err = (lookPath "ffmpeg").2) ∧
    p.Spawn mk1 lookPath dir URI = p.Spawn mk2 lookPath dir URI ∧
    (∀ err : String,
      p.Spawn (fun _ => none) lookPath dir URI =
        p.Spawn (fun _ => some err) lookPath dir URI) ∧
    (∀ lookPath2 : String → String × Option String,
      (p.Spawn mk1 lookPath dir URI).Args = (p.Spawn mk2 lookPath2 dir URI).Args) := by
  have hargs : ∀ (mk : String → Option String) (lp : String → String × Option String),
      (p.Spawn mk lp dir URI).Args = "ffmpeg" :: p.processCommands dir URI :=
    fun mk lp => Spawn_Args p mk lp dir URI
  refine ⟨⟨_, rfl, rfl, ?_, ?_, ?_, ?_⟩, rfl, fun _ => rfl, fun lp2 => ?_⟩
  · rw [hargs]; rfl
  · rw [hargs]; rfl
  · exact Command_Path lookPath "ffmpeg" _ Base_ffmpeg
  · exact Command_Err lookPath "ffmpeg" _ Base_ffmpeg
  · rw [hargs, hargs]

/-- C11 at Scenario A, with directory creation succeeding and failing: with ffmpeg
installed the descriptor of the failing call has the resolved path and no error; with
ffmpeg missing it keeps the name and records the lookup error. -/
theorem Spawn_ignores_mkdir_witness :
    (NewProcess false true true 0 noLogging).Spawn (fun _ => none) lookPathInstalled
        "/tmp/cam1" "rtsp://x" =
      (NewProcess false true true 0 noLogging).Spawn (fun _ => some "permission denied")
        lookPathInstalled "/tmp/cam1" "rtsp://x" ∧
    ((NewProcess false true true 0 noLogging).Spawn (fun _ => some "permission denied")
        lookPathInstalled "/tmp/cam1" "rtsp://x").Path = "/usr/bin/ffmpeg" ∧
    ((NewProcess false true true 0 noLogging).Spawn (fun _ => some "permission denied")
        lookPathInstalled "/tmp/cam1" "rtsp://x").Err = none ∧
    ((NewProcess false true true 0 noLogging).Spawn (fun _ => some "permission denied")
        lookPathMissing "/tmp/cam1" "rtsp://x").Path = "ffmpeg" ∧
    ((NewProcess false true true 0 noLogging).Spawn (fun _ => some "permission denied")
        lookPathMissing "/tmp/cam1" "rtsp://x").Err = some "executable file not found" ∧
    ((NewProcess false true true 0 noLogging).Spawn (fun _ => some "permission denied")
        lookPathMissing "/tmp/cam1" "rtsp://x").Args.head? = some "ffmpeg" :=
  ⟨(Spawn_ignores_mkdir (NewProcess false true true 0 noLogging) (fun _ => none)
      (fun _ => some "permission denied") lookPathInstalled "/tmp/cam1" "rtsp://x").2.1,
    by decide, by decide, by decide, by decide, by decide⟩

/-- C12: NewProcess(k, a, l, d, o) has keepFiles = k, audio = a, live = l,
streamDuration = d and loggingOpts = o, and Spawn on it uses k as the retention flag, a as
the audio flag, l as the live-mode flag and d as the capture duration. With
NewProcess(false, true, true, 0, o) the sequence has the pairs `-c:a`, `copy` and
`-hls_flags`, `delete_segments+append_list`. -/
theorem NewProcess_fields (k a l : Bool) (d : Int) (o : ProcessLoggingOpts)
    (dir URI : String) :
    (NewProcess k a l d o).keepFiles = k ∧
    (NewProcess k a l d o).audio = a ∧
    (NewProcess k a l d o).live = l ∧
    (NewProcess k a l d o).streamDuration = d ∧
    (NewProcess k a l d o).loggingOpts = o ∧
    (NewProcess k a l d o).processCommands dir URI =
      inputVideoGroup URI ++ (if a = true then ["-c:a", "copy"] else ["-an"]) ++
        (if d > 0 then ["-t", Itoa d] else []) ++ ["-f", "hls"] ++
        (if l = true then
          ["-hls_flags", if k = true then "append_list" else "delete_segments+append_list",
            "-segment_list_flags", "live", "-hls_time", "1", "-hls_list_size", "3"]
        else ["-hls_list_size", "0", "-hls_time", "5"]) ++
        terminalGroup dir ∧
    (∃ i, pairAt ((NewProcess false true true 0 o).processCommands dir URI) i
      "-c:a" "copy") ∧
    (∃ i, pairAt ((NewProcess false true true 0 o).processCommands dir URI) i
      "-hls_flags" "delete_segments+append_list") := by
  refine ⟨rfl, rfl, rfl, rfl, rfl, ?_, ⟨11, rfl, rfl⟩, ⟨15, rfl, rfl⟩⟩
  unfold Process.processCommands NewProcess inputVideoGroup terminalGroup Process.getHLSFlags
  cases k <;> cases a <;> cases l <;> by_cases h : d > 0 <;> simp [h]

/-- C12 at the arguments (false, true, true, 0): positions 11-12 and 15-16. -/
theorem NewProcess_fields_witness :
    pairAt ((NewProcess false true true 0 noLogging).processCommands "/tmp/cam1" "rtsp://x")
      11 "-c:a" "copy" ∧
    pairAt ((NewProcess false true true 0 noLogging).processCommands "/tmp/cam1" "rtsp://x")
      15 "-hls_flags" "delete_segments+append_list" ∧
    (NewProcess false true true 0 noLogging).keepFiles = false ∧
    (NewProcess false true true 0 noLogging).audio = true := by
  have h := NewProcess_fields false true true 0 noLogging "/tmp/cam1" "rtsp://x"
  exact ⟨by decide, by decide, h.1, h.2.1⟩

/-- C13: in finite mode the retention flag is inert: with live = false the sequence built
with keepFiles = true is the one built with keepFiles = false, for every audio flag,
streamDuration, logging options, directory and URI; so is the descriptor. In live mode the
two sequences differ. -/
theorem keepFiles_inert_finite (a : Bool) (d : Int) (o : ProcessLoggingOpts)
    (dir URI : String) :
    (NewProcess true a false d o).processCommands dir URI =
      (NewProcess false a false d o).processCommands dir URI ∧
    (∀ (mk : String → Option String) (lookPath : String → String × Option String),
      (NewProcess true a false d o).Spawn mk lookPath dir URI =
        (NewProcess false a false d o).Spawn mk lookPath dir URI) ∧
    (NewProcess true a true d o).processCommands dir URI ≠
      (NewProcess false a true d o).processCommands dir URI := by
  have h1 : (NewProcess true a false d o).processCommands dir URI =
      (NewProcess false a false d o).processCommands dir URI := by
    rw [processCommands_cases, processCommands_cases]
    simp [NewProcess]
  refine ⟨h1, fun mk lookPath => ?_, ?_⟩
  · unfold Process.Spawn
    rw [h1]
  · rw [processCommands_cases, processCommands_cases]
    cases a <;> by_cases h : d > 0 <;> simp [NewProcess, Process.getHLSFlags, h]

/-- C13 at Scenario B and its keepFiles-false variant. -/
theorem keepFiles_inert_finite_witness :
    (NewProcess true false false 60 noLogging).processCommands "/tmp/cam1" "rtsp://x" =
      (NewProcess false false false 60 noLogging).processCommands "/tmp/cam1" "rtsp://x" :=
  (keepFiles_inert_finite false 60 noLogging "/tmp/cam1" "rtsp://x").1

/-- C14: two Process values that agree on keepFiles, audio, live and streamDuration build
the identical argument sequence (and descriptor) for every directory and URI, whatever
their loggingOpts are. -/
theorem loggingOpts_irrelevant (p q : Process) (hk : p.keepFiles = q.keepFiles)
    (ha : p.audio = q.audio) (hl : p.live = q.live)
    (hd : p.streamDuration = q.streamDuration) (dir URI : String) :
    p.processCommands dir URI = q.processCommands dir URI ∧
    ∀ (mk : String → Option String) (lookPath : String → String × Option String),
      p.Spawn mk lookPath dir URI = q.Spawn mk lookPath dir URI := by
  have h1 : p.processCommands dir URI = q.processCommands dir URI := by
    rw [processCommands_cases, processCommands_cases]
    simp only [Process.getHLSFlags, hk, ha, hl, hd]
  refine ⟨h1, fun mk lookPath => ?_⟩
  unfold Process.Spawn
  rw [h1]

/-- C14 at Scenario A, with logging switched off and with logging switched on. -/
theorem loggingOpts_irrelevant_witness :
    (NewProcess false true true 0 noLogging).loggingOpts ≠
      (NewProcess false true true 0 fileLogging).loggingOpts ∧
    (NewProcess false true true 0 noLogging).processCommands "/tmp/cam1" "rtsp://x" =
      (NewProcess false true true 0 fileLogging).processCommands "/tmp/cam1" "rtsp://x" :=
  ⟨by decide,
    (loggingOpts_irrelevant (NewProcess false true true 0 noLogging)
      (NewProcess false true true 0 fileLogging) rfl rfl rfl rfl "/tmp/cam1" "rtsp://x").1⟩

/-- C15: the argument sequence is a function of keepFiles, audio, live, streamDuration, the
output directory and the source URI only: one function of these six values gives the
sequence of every Spawn call, whatever `os.MkdirAll` and the path lookup yield, so two
calls with equal configuration, directory and URI produce identical sequences. -/
theorem Spawn_deterministic :
    (∃ f : Bool → Bool → Bool → Int → String → String → List String,
      ∀ (p : Process) (mk : String → Option String)
        (lookPath : String → String × Option String) (dir URI : String),
        p.processCommands dir URI =
          f p.keepFiles p.audio p.live p.streamDuration dir URI ∧
        (p.Spawn mk lookPath dir URI).Args =
          "ffmpeg" :: f p.keepFiles p.audio p.live p.streamDuration dir URI) ∧
    (∀ (p q : Process) (mk1 mk2 : String → Option String)
      (lp1 lp2 : String → String × Option String) (d1 d2 u1 u2 : String),
      p = q → d1 = d2 → u1 = u2 →
        (p.Spawn mk1 lp1 d1 u1).Args = (q.Spawn mk2 lp2 d2 u2).Args) := by
  refine ⟨⟨fun k a l d dir URI => (NewProcess k a l d noLogging).processCommands dir URI,
    fun p mk lookPath dir URI => ?_⟩, ?_⟩
  · have h : p.processCommands dir URI =
        (NewProcess p.keepFiles p.audio p.live p.streamDuration noLogging).processCommands
          dir URI := by
      rw [processCommands_cases, processCommands_cases]
      simp only [NewProcess, Process.getHLSFlags]
    exact ⟨h, by rw [Spawn_Args, h]⟩
  · rintro p q mk1 mk2 lp1 lp2 d1 d2 u1 u2 rfl rfl rfl
    rw [Spawn_Args, Spawn_Args]

/-- C15 at Scenario A: two calls, one with directory creation succeeding and one with it
failing, give the same arguments. -/
theorem Spawn_deterministic_witness :
    ((NewProcess false true true 0 noLogging).Spawn (fun _ => none) lookPathInstalled
      "/tmp/cam1" "rtsp://x").Args =
    ((NewProcess false true true 0 noLogging).Spawn (fun _ => some "file exists")
      lookPathMissing "/tmp/cam1" "rtsp://x").Args :=
  Spawn_deterministic.2 _ _ _ _ _ _ _ _ _ _ rfl rfl rfl

/-- C16: for one configuration, two directories d1, d2 and two URIs u1, u2, the sequences
have the same length and agree at every index except index 4, which holds u1 resp. u2, and
the last two indices, which hold d ++ "/%d.ts" and d ++ "/index.m3u8" for d1 resp. d2; the
number of tokens depends only on audio, streamDuration > 0 and live. -/
theorem caller_strings_confined (p : Process) (d1 d2 u1 u2 : String) :
    (p.processCommands d1 u1).length = (p.processCommands d2 u2).length ∧
    (∀ i : Nat, i ≠ 4 → i ≠ (p.processCommands d1 u1).length - 2 →
      i ≠ (p.processCommands d1 u1).length - 1 →
        (p.processCommands d1 u1)[i]? = (p.processCommands d2 u2)[i]?) ∧
    ((p.processCommands d1 u1)[4]? = some u1 ∧ (p.processCommands d2 u2)[4]? = some u2) ∧
    ((p.processCommands d1 u1)[(p.processCommands d1 u1).length - 2]? = some (d1 ++ "/%d.ts") ∧
      (p.processCommands d2 u2)[(p.processCommands d2 u2).length - 2]?
        = some (d2 ++ "/%d.ts")) ∧
    ((p.processCommands d1 u1)[(p.processCommands d1 u1).length - 1]?
        = some (d1 ++ "/index.m3u8") ∧
      (p.processCommands d2 u2)[(p.processCommands d2 u2).length - 1]?
        = some (d2 ++ "/index.m3u8")) ∧
    (p.processCommands d1 u1).length =
      16 + (if p.audio = true then 2 else 1) + (if p.streamDuration > 0 then 2 else 0) +
        (if p.live = true then 8 else 4) := by
  obtain ⟨mid, hmid⟩ := processCommands_slots p
  have hlen : ∀ d u : String, (p.processCommands d u).length = mid.length + 7 := by
    intro d u
    rw [hmid]
    simp
  have hseg : ∀ d u : String,
      (p.processCommands d u)[(p.processCommands d u).length - 2]? = some (d ++ "/%d.ts") := by
    intro d u
    obtain ⟨front, hfront⟩ := processCommands_terminal p d u
    have hl : (p.processCommands d u).length - 2 = front.length + 1 := by
      rw [hfront]; simp
    rw [hl, hfront, getElem?_append_offset]
    rfl
  have hpl : ∀ d u : String,
      (p.processCommands d u)[(p.processCommands d u).length - 1]?
        = some (d ++ "/index.m3u8") := by
    intro d u
    obtain ⟨front, hfront⟩ := processCommands_terminal p d u
    have hl : (p.processCommands d u).length - 1 = front.length + 2 := by
      rw [hfront]; simp
    rw [hl, hfront, getElem?_append_offset]
    rfl
  have hslot : ∀ d u : String, (p.processCommands d u)[4]? = some u := by
    intro d u
    rw [processCommands_cases]
    rfl
  refine ⟨by rw [hlen, hlen], ?_, ⟨hslot d1 u1, hslot d2 u2⟩, ⟨hseg d1 u1, hseg d2 u2⟩,
    ⟨hpl d1 u1, hpl d2 u2⟩, processCommands_length p d1 u1⟩
  intro i h4 hs ht
  rw [hlen] at hs ht
  rw [hmid d1 u1, hmid d2 u2]
  apply getElem?_eq_off_slots
  · simpa using h4
  · simp only [List.length_cons, List.length_nil]
    omega
  · simp only [List.length_cons, List.length_nil]
    omega

/-- C16 with an empty URI against a URI that contains a space and looks like flags, and two
directories: the sequences have 26 tokens each and the same token at index 5. -/
theorem caller_strings_confined_witness :
    ((NewProcess false true true 0 noLogging).processCommands "/tmp/cam1" "").length = 26 ∧
    ((NewProcess false true true 0 noLogging).processCommands "/tmp/cam1" "")[5]? =
      ((NewProcess false true true 0 noLogging).processCommands "" "-an -f x")[5]? ∧
    ((NewProcess false true true 0 noLogging).processCommands "" "-an -f x")[4]? =
      some "-an -f x" := by
  have h := caller_strings_confined (NewProcess false true true 0 noLogging)
    "/tmp/cam1" "" "" "-an -f x"
  exact ⟨by decide, h.2.1 5 (by decide) (by decide) (by decide), h.2.2.1.2⟩

end Streamer
